import Mathlib

/-
Verification development for the Cymbal Superstore analytics pipeline
(scripts 01_kmeans_segmentation.py and 02_churn_model.py).

Shallow embedding conventions:
- A numeric pandas column is a list of optional rationals (none models NaN,
  the result of a NULL in the store or a failed numeric coercion).
- The segmentation script frame is an association list from column name to
  column, because its cleaning code indexes columns by name and a missing
  required column is an observable KeyError (the DataError of the spec).
- The churn script frame is a list of records, one per customer row, since
  its column set is fixed by the SQL query of load_training_frame.
- scikit-learn model fitting (StandardScaler, KMeans, LogisticRegression)
  is kept opaque: the pipeline functions are parameterized by the fitted
  scorer, and theorems quantify over it.  Everything pandas-side (imputation,
  the churn label, qcut banding, the priority table, value_at_risk) is
  embedded concretely over exact rationals.
- A run of a main function returns the list of output tables written, in
  order, together with an optional fatal error; a to_sql call that the sink
  refuses is modeled by the writeOk oracle.
-/

namespace Cymbal

/-- Error taxonomy of the spec (section 7).  missingColumn is the KeyError
raised by df[col] on an absent column; stratifySingleton and singleClassLabel
are the ValueError raised by train_test_split(stratify=y) on a class with a
single member and by LogisticRegression.fit on a single-class label;
binEdges is the ValueError raised by pd.qcut on duplicate bin edges or by
astype(int) on a NaN band; connectivity is a refused write. -/
inductive PipeError where
  | missingColumn (c : String)
  | stratifySingleton
  | singleClassLabel
  | binEdges
  | connectivity
deriving DecidableEq, Repr

/-- A pandas numeric column: entries are rational or NaN. -/
abbrev Col := List (Option ℚ)

/-- The non-missing entries of a column (pandas skipna view). -/
def presentVals (c : Col) : List ℚ := c.filterMap id

/-- Does the column contain a NaN?  Models df[c].isna().any(). -/
def hasNA (c : Col) : Bool := c.any (·.isNone)

/-- Series.fillna(v): replace every NaN by v. -/
def fillna (c : Col) (v : ℚ) : Col := c.map (fun x => some (x.getD v))

/-- Ascending sort of a list of rationals. -/
def sortedAsc (xs : List ℚ) : List ℚ := List.insertionSort (· ≤ ·) xs

/-- The pandas median of a list of observations: middle element of the sorted
list for odd length, mean of the two middle elements for even length. -/
def median (xs : List ℚ) : ℚ :=
  let s := sortedAsc xs
  let n := s.length
  if n % 2 = 1 then s.getD (n / 2) 0
  else (s.getD (n / 2 - 1) 0 + s.getD (n / 2) 0) / 2

/-- Series.median(): NaN entries are skipped; an all-NaN column has no median
(pandas returns NaN, so the subsequent fillna changes nothing). -/
def medianNA (c : Col) : Option ℚ :=
  match presentVals c with
  | [] => none
  | xs => some (median xs)

/-- Mean of a list of observations. -/
def mean (xs : List ℚ) : ℚ := xs.sum / (xs.length : ℚ)

/-- A segmentation-script data frame: named numeric columns. -/
abbrev Frame := List (String × Col)

/-- Column lookup, df[c]; none models the KeyError on an absent column. -/
def getCol (f : Frame) (c : String) : Option Col := f.lookup c

/-- Column assignment df[c] = v: replace in place, or append a new column. -/
def setCol (f : Frame) (c : String) (v : Col) : Frame :=
  match f with
  | [] => [(c, v)]
  | (c1, v1) :: rest => if c1 = c then (c, v) :: rest else (c1, v1) :: setCol rest c v

/-- The FEATURES list of 01_kmeans_segmentation.py (lines 27-36). -/
def FEATURES : List String :=
  ["recency_days", "frequency", "monetary", "avg_order_value",
   "avg_items_per_order", "avg_category_diversity", "tenure_days",
   "avg_days_between_orders"]

/-- pd.to_numeric(s, errors="coerce"): in this embedding column entries are
already numeric-or-NaN, so the coercion itself is the identity; what remains
observable is the KeyError when the column is absent, handled in coerceCols. -/
def to_numeric (c : Col) : Col := c

/-- The coercion loop of clean_features (lines 68-69): df[col] =
pd.to_numeric(df[col], ...) for each required column; reading df[col] raises
a KeyError when the column is entirely absent from the input. -/
def coerceCols (cs : List String) (f : Frame) : Except PipeError Frame :=
  match cs with
  | [] => .ok f
  | c :: rest =>
    match getCol f c with
    | none => .error (.missingColumn c)
    | some v => coerceCols rest (setCol f c (to_numeric v))

/-- One step of the median-imputation loop (lines 77-79): if df[col] has any
NaN, fill with the column median computed over the current data. -/
def fillColMedian (f : Frame) (c : String) : Frame :=
  match getCol f c with
  | none => f
  | some v =>
    if hasNA v then
      match medianNA v with
      | none => f
      | some m => setCol f c (fillna v m)
    else f

/-- The clustering feature list returned by clean_features (lines 88-97). -/
def clustering_features : List String :=
  ["recency_days", "frequency", "monetary_log", "avg_order_value_log",
   "avg_items_per_order", "avg_category_diversity", "tenure_days",
   "avg_days_between_orders"]

/-- clean_features of 01_kmeans_segmentation.py (lines 66-99): coerce the
FEATURES columns to numeric, fill missing avg_days_between_orders with the
9999 sentinel, median-impute remaining missing values per column, add the
log1p-transformed spend columns (np.log1p is the opaque parameter log1p),
and return the frame with the clustering feature list. -/
def clean_features (log1p : ℚ → ℚ) (f : Frame) : Except PipeError (Frame × List String) :=
  match coerceCols FEATURES f with
  | .error e => .error e
  | .ok f1 =>
    let f2 := match getCol f1 "avg_days_between_orders" with
      | none => f1
      | some v => setCol f1 "avg_days_between_orders" (fillna v 9999)
    let f3 := FEATURES.foldl (fun g c => fillColMedian g c) f2
    let f4 := match getCol f3 "monetary" with
      | none => f3
      | some v => setCol f3 "monetary_log" (v.map (fun x => x.map log1p))
    let f5 := match getCol f4 "avg_order_value" with
      | none => f4
      | some v => setCol f4 "avg_order_value_log" (v.map (fun x => x.map log1p))
    .ok (f5, clustering_features)

/-- One row of the segment profile table built by profile_segments
(lines 118-140); segment_name is filled in later by name_segments, mirroring
the column added at line 164. -/
structure ProfileRow where
  segment : ℕ := 0
  customers : ℕ := 0
  recency_days : ℚ := 0
  frequency : ℚ := 0
  monetary : ℚ := 0
  avg_order_value : ℚ := 0
  avg_items_per_order : ℚ := 0
  avg_category_diversity : ℚ := 0
  tenure_days : ℚ := 0
  avg_days_between_orders : ℚ := 0
  share : ℚ := 0
  recency_rank : ℚ := 0
  value_rank : ℚ := 0
  freq_rank : ℚ := 0
  segment_name : String := ""
deriving DecidableEq, Repr

/-- The values of column c belonging to cluster g (groupby(label).agg,
skipping NaN as pandas mean does). -/
def groupVals (labels : List ℕ) (g : ℕ) (c : Col) : List ℚ :=
  presentVals (((labels.zip c).filter (fun p => p.1 = g)).map (fun p => p.2))

/-- Per-cluster mean of column c. -/
def groupMean (labels : List ℕ) (g : ℕ) (c : Col) : ℚ :=
  mean (groupVals labels g c)

/-- The distinct cluster ids in ascending order (pandas groupby sorts keys). -/
def sortedGroups (labels : List ℕ) : List ℕ :=
  List.insertionSort (· ≤ ·) labels.dedup

/-- Series.rank(method="dense", ascending=True) of v within xs: one plus the
number of distinct values strictly below v. -/
def denseRankAsc (xs : List ℚ) (v : ℚ) : ℚ :=
  1 + (((xs.filter (fun u => u < v)).dedup).length : ℚ)

/-- Series.rank(method="dense", ascending=False): one plus the number of
distinct values strictly above v. -/
def denseRankDesc (xs : List ℚ) (v : ℚ) : ℚ :=
  1 + (((xs.filter (fun u => v < u)).dedup).length : ℚ)

/-- profile_segments (lines 118-140): group by cluster label, aggregate the
count and the mean of each business metric, add the population share and the
three dense rank helper columns. -/
def profile_segments (f : Frame) (labels : List ℕ) : List ProfileRow :=
  let col := fun c => (getCol f c).getD []
  let base := (sortedGroups labels).map (fun g =>
    { segment := g
      customers := labels.count g
      recency_days := groupMean labels g (col "recency_days")
      frequency := groupMean labels g (col "frequency")
      monetary := groupMean labels g (col "monetary")
      avg_order_value := groupMean labels g (col "avg_order_value")
      avg_items_per_order := groupMean labels g (col "avg_items_per_order")
      avg_category_diversity := groupMean labels g (col "avg_category_diversity")
      tenure_days := groupMean labels g (col "tenure_days")
      avg_days_between_orders := groupMean labels g (col "avg_days_between_orders")
      : ProfileRow })
  let total : ℚ := ((base.map (fun r => r.customers)).sum : ℕ)
  let recencies := base.map (fun r => r.recency_days)
  let monets := base.map (fun r => r.monetary)
  let freqs := base.map (fun r => r.frequency)
  base.map (fun r =>
    { r with
      share := (r.customers : ℚ) / total
      recency_rank := denseRankAsc recencies r.recency_days
      value_rank := denseRankDesc monets r.monetary
      freq_rank := denseRankDesc freqs r.frequency })

/-- The per-row naming rule of name_segments (lines 148-162): the fixed
five-rule decision table, first match wins; it reads exactly the three rank
fields of the row. -/
def segment_name (row : ProfileRow) : String :=
  if row.value_rank ≤ 1 ∧ row.freq_rank ≤ 2 ∧ row.recency_rank ≤ 2 then "Champions"
  else if row.value_rank ≤ 2 ∧ 4 ≤ row.recency_rank then "At-Risk High Value"
  else if row.freq_rank ≤ 2 ∧ 4 ≤ row.value_rank then "Loyal Low Spend"
  else if row.recency_rank ≤ 2 ∧ 4 ≤ row.freq_rank then "New Customers"
  else "Occasional Shoppers"

/-- name_segments (lines 143-165): apply the naming rule row-wise and store
the result in the segment_name column. -/
def name_segments (prof : List ProfileRow) : List ProfileRow :=
  prof.map (fun r => { r with segment_name := segment_name r })

/-- Modelled from the spec (section 4.3): the five-rule decision table as a
pure function of the rank triple alone, used to state that segment naming
factors through (value_rank, freq_rank, recency_rank). -/
def specNameOfRankTriple (value_rank freq_rank recency_rank : ℚ) : String :=
  if value_rank ≤ 1 ∧ freq_rank ≤ 2 ∧ recency_rank ≤ 2 then "Champions"
  else if value_rank ≤ 2 ∧ 4 ≤ recency_rank then "At-Risk High Value"
  else if freq_rank ≤ 2 ∧ 4 ≤ value_rank then "Loyal Low Spend"
  else if recency_rank ≤ 2 ∧ 4 ≤ freq_rank then "New Customers"
  else "Occasional Shoppers"

/-- Sequential to_sql calls: each write either commits (appending the table
name to the run log) or is refused by the sink, which aborts the run at that
point with a connectivity error, keeping the writes already committed. -/
def writeSeq (writeOk : String → Bool) : List String → List String × Option PipeError
  | [] => ([], none)
  | n :: rest =>
    if writeOk n then
      let r := writeSeq writeOk rest
      (n :: r.1, r.2)
    else ([], some .connectivity)

/-- main of 01_kmeans_segmentation.py (lines 179-242).  The in-memory model
steps (StandardScaler, choose_k, fit_kmeans) are the opaque cluster
parameter, which may itself fail as scikit-learn can raise; profiling and
naming are concrete; the run ends with two separate to_sql calls, first
customer_segments, then segment_profile.  The merge and column selection of
lines 211-228 only shape the customer_segments payload and add no failure
point or write. -/
def seg_main (cluster : Frame → List String → Except PipeError (List ℕ))
    (log1p : ℚ → ℚ) (writeOk : String → Bool) (f : Frame) :
    List String × Option PipeError :=
  match clean_features log1p f with
  | .error e => ([], some e)
  | .ok (df, feats) =>
    match cluster df feats with
    | .error e => ([], some e)
    | .ok labels =>
      let _prof := name_segments (profile_segments df labels)
      writeSeq writeOk ["customer_segments", "segment_profile"]

/-- One raw row of the churn training frame, exactly the columns selected by
the SQL query of load_training_frame (02_churn_model.py lines 35-62); numeric
fields are optional (NULL or failed coercion gives NaN), segment_name may be
NULL after the left join, and churned is the label column added at line 102
(absent until then, 0 by convention). -/
structure RawRow where
  customer_unique_id : String := ""
  frequency : Option ℚ := none
  monetary : Option ℚ := none
  avg_order_value : Option ℚ := none
  avg_items_per_order : Option ℚ := none
  avg_category_diversity : Option ℚ := none
  tenure_days : Option ℚ := none
  avg_days_between_orders : Option ℚ := none
  recency_days : Option ℚ := none
  segment_name : Option String := none
  spend_30d : Option ℚ := none
  spend_90d : Option ℚ := none
  spend_180d : Option ℚ := none
  orders_30d : Option ℚ := none
  orders_90d : Option ℚ := none
  orders_180d : Option ℚ := none
  recent_order_ratio : Option ℚ := none
  recent_spend_ratio : Option ℚ := none
  churned : ℕ := 0
deriving DecidableEq, Repr

/-- One step of the lifetime median-imputation loop of load_training_frame
(lines 89-91): if the column read by get has any NaN, fill it with its median
over the current data; an all-NaN column has a NaN median and fillna(NaN)
changes nothing. -/
def fillFieldMedian (get : RawRow → Option ℚ) (set : RawRow → Option ℚ → RawRow)
    (rows : List RawRow) : List RawRow :=
  let c : Col := rows.map get
  if hasNA c then
    match medianNA c with
    | none => rows
    | some m => rows.map (fun r => set r (some ((get r).getD m)))
  else rows

/-- One step of the time-windowed zero-imputation loop (lines 94-96). -/
def fillFieldZero (get : RawRow → Option ℚ) (set : RawRow → Option ℚ → RawRow)
    (rows : List RawRow) : List RawRow :=
  let c : Col := rows.map get
  if hasNA c then rows.map (fun r => set r (some ((get r).getD 0))) else rows

/-- CHURN_THRESHOLD_DAYS of 02_churn_model.py (line 25). -/
def CHURN_THRESHOLD_DAYS : ℚ := 180

/-- The churn label rule of line 102: (recency_days >= threshold).astype(int);
a NaN recency compares False in pandas and yields label 0. -/
def churnLabel (recency_days : Option ℚ) : ℕ :=
  match recency_days with
  | none => 0
  | some r => if CHURN_THRESHOLD_DAYS ≤ r then 1 else 0

/-- The cleaning and labelling block of load_training_frame (lines 66-107),
applied to the frame returned by the SQL query: numeric coercion is the
identity on the optional-rational fields (every selected column exists in
the record type, so no KeyError arises here); then the lifetime columns are
median-imputed in source order, the four used time-windowed columns are
zero-imputed, avg_days_between_orders is sentinel-filled at line 99 (after
the median loop), the churn label is derived from recency_days, and missing
segment names become the literal Unknown. -/
def load_training_frame (rows : List RawRow) : List RawRow :=
  let r1 := fillFieldMedian (fun r => r.frequency) (fun r v => { r with frequency := v }) rows
  let r2 := fillFieldMedian (fun r => r.monetary) (fun r v => { r with monetary := v }) r1
  let r3 := fillFieldMedian (fun r => r.avg_order_value) (fun r v => { r with avg_order_value := v }) r2
  let r4 := fillFieldMedian (fun r => r.avg_items_per_order) (fun r v => { r with avg_items_per_order := v }) r3
  let r5 := fillFieldMedian (fun r => r.avg_category_diversity) (fun r v => { r with avg_category_diversity := v }) r4
  let r6 := fillFieldMedian (fun r => r.tenure_days) (fun r v => { r with tenure_days := v }) r5
  let r7 := fillFieldMedian (fun r => r.avg_days_between_orders) (fun r v => { r with avg_days_between_orders := v }) r6
  let r8 := fillFieldZero (fun r => r.spend_30d) (fun r v => { r with spend_30d := v }) r7
  let r9 := fillFieldZero (fun r => r.spend_90d) (fun r v => { r with spend_90d := v }) r8
  let r10 := fillFieldZero (fun r => r.orders_30d) (fun r v => { r with orders_30d := v }) r9
  let r11 := fillFieldZero (fun r => r.orders_90d) (fun r v => { r with orders_90d := v }) r10
  let r12 := r11.map (fun r => { r with avg_days_between_orders := some (r.avg_days_between_orders.getD 9999) })
  let r13 := r12.map (fun r => { r with churned := churnLabel r.recency_days })
  r13.map (fun r => { r with segment_name := some (r.segment_name.getD "Unknown") })

/-- The model feature matrix X of train_and_score (lines 111-129): the seven
lifetime numeric features, the four used 30/90-day time-windowed features,
and the categorical segment name.  The 180-day columns are deliberately not
part of this record. -/
structure FeatVec where
  frequency : Option ℚ := none
  monetary : Option ℚ := none
  avg_order_value : Option ℚ := none
  avg_items_per_order : Option ℚ := none
  avg_category_diversity : Option ℚ := none
  tenure_days : Option ℚ := none
  avg_days_between_orders : Option ℚ := none
  spend_30d : Option ℚ := none
  spend_90d : Option ℚ := none
  orders_30d : Option ℚ := none
  orders_90d : Option ℚ := none
  segment_name : Option String := none
deriving DecidableEq, Repr

/-- Row projection onto the feature matrix X = df[feature_cols_num +
feature_cols_cat] (line 129). -/
def featuresOf (r : RawRow) : FeatVec :=
  { frequency := r.frequency
    monetary := r.monetary
    avg_order_value := r.avg_order_value
    avg_items_per_order := r.avg_items_per_order
    avg_category_diversity := r.avg_category_diversity
    tenure_days := r.tenure_days
    avg_days_between_orders := r.avg_days_between_orders
    spend_30d := r.spend_30d
    spend_90d := r.spend_90d
    orders_30d := r.orders_30d
    orders_90d := r.orders_90d
    segment_name := r.segment_name }

/-- A row scored with a churn probability (train_and_score lines 162-163). -/
structure Scored where
  base : RawRow
  churn_risk : ℚ
deriving DecidableEq, Repr

/-- train_and_score (lines 110-165).  The learner parameter stands for the
whole scikit-learn side: train_test_split with the fixed seed, the
preprocessing pipeline and LogisticRegression.fit; it receives the full X
and y (the split is a deterministic function of them) and either fails, as
the library can, or returns the fitted predict_proba scorer.  Two failure
modes of the library are explicit because claims rest on them:
train_test_split(stratify=y) raises when a present class has exactly one
member, and the fit raises when y holds fewer than two classes.  On success
every customer is scored on the full matrix X. -/
def train_and_score
    (learner : List FeatVec → List ℕ → Except PipeError (FeatVec → ℚ))
    (df : List RawRow) : Except PipeError (List Scored) :=
  let X := df.map featuresOf
  let y := df.map (fun r => r.churned)
  if y.count 0 = 1 ∨ y.count 1 = 1 then .error .stratifySingleton
  else if ¬ (0 ∈ y ∧ 1 ∈ y) then .error .singleClassLabel
  else
    match learner X y with
    | .error e => .error e
    | .ok predict => .ok (df.map (fun r => ⟨r, predict (featuresOf r)⟩))

/-- The numpy linear-interpolation quantile of a sorted list s at fraction p:
position p * (len - 1), value interpolated between the two neighbouring
order statistics. -/
def quantileLin (s : List ℚ) (p : ℚ) : ℚ :=
  let pos : ℚ := p * ((s.length : ℚ) - 1)
  let i : ℕ := ⌊pos⌋₊
  let a := s.getD i 0
  let b := s.getD (i + 1) a
  a + (pos - (i : ℚ)) * (b - a)

/-- Is the list strictly increasing?  Used for the uniqueness check that
pd.qcut performs on its bin edges. -/
def strictAsc : List ℚ → Bool
  | [] => true
  | [_] => true
  | a :: b :: t => decide (a < b) && strictAsc (b :: t)

/-- pd.qcut(xs, q, labels): quantile bin edges at k/q via linear
interpolation over the sorted data; the lowest edge is nudged below the
minimum so the first bin is left-inclusive, hence uniqueness of the edge
list reduces to the inner edges plus the maximum being strictly increasing;
duplicate edges raise (none).  Element v falls in the bin counting the inner
edges strictly below it, and labels maps bin index (0 = lowest values) to
the stored label. -/
def pdQcut (xs : List ℚ) (q : ℕ) (labels : ℕ → ℕ) : Option (List ℕ) :=
  let s := List.insertionSort (· ≤ ·) xs
  let inner := (List.range (q - 1)).map (fun (k : ℕ) => quantileLin s (((k : ℚ) + 1) / (q : ℚ)))
  let mx := s.getLast?.getD 0
  if strictAsc (inner ++ [mx]) then
    some (xs.map (fun v => labels (inner.countP (fun e => decide (e < v)))))
  else none

/-- A scored row with the risk_decile column of main (line 262). -/
structure Deciled where
  scored : Scored
  risk_decile : ℕ
deriving DecidableEq, Repr

/-- scored["risk_decile"] = pd.qcut(scored["churn_risk"], 10, labels=False)
(line 262): decile index 0-9, 9 = highest risk. -/
def addRiskDecile (rows : List Scored) : Option (List Deciled) :=
  (pdQcut (rows.map (fun r => r.churn_risk)) 10 id).map
    (fun ds => (rows.zip ds).map (fun p => ⟨p.1, p.2⟩))

/-- A row extended by assign_priority_band with its three new columns. -/
structure Banded where
  deciled : Deciled
  risk_band : ℕ
  value_band : ℕ
  priority_band : String
deriving DecidableEq, Repr

/-- The priority rule of assign_priority_band (lines 235-242); the source
per-row function reads exactly the risk_band and value_band fields. -/
def priority (risk_band value_band : ℕ) : String :=
  if risk_band = 1 ∧ value_band = 1 then "HIGH"
  else if risk_band = 1 ∧ value_band = 2 then "MEDIUM"
  else if risk_band = 2 ∧ value_band = 1 then "MEDIUM"
  else "LOW"

/-- Modelled from the spec (section 4.5): the fixed combination rule
(1,1) to HIGH, (1,2) or (2,1) to MEDIUM, all other pairs LOW, as the spec
words it, for comparison with the source priority function. -/
def priorityBandSpec (rb vb : ℕ) : String :=
  if (rb, vb) = (1, 1) then "HIGH"
  else if (rb, vb) = (1, 2) ∨ (rb, vb) = (2, 1) then "MEDIUM"
  else "LOW"

/-- Extract the values of a column that the source converts with
astype(int) after qcut: if any entry is NaN the conversion raises, hence
none; otherwise all values, in order. -/
def allSome : List (Option ℚ) → Option (List ℚ)
  | [] => some []
  | none :: _ => none
  | some x :: t => (allSome t).map (fun xs => x :: xs)

/-- assign_priority_band (lines 214-246): work on a copy of the frame, band
churn_risk into tertiles with labels 3,2,1 (1 = highest risk), band monetary
likewise (1 = highest value), then apply the priority rule row-wise.  The
astype(int) calls force the failure on NaN bands: a NaN monetary entry gets
a NaN band from qcut, so the extraction of all monetary values must succeed;
qcut itself fails on duplicate bin edges. -/
def assign_priority_band (rows : List Deciled) : Option (List Banded) :=
  match pdQcut (rows.map (fun r => r.scored.churn_risk)) 3 (fun i => 3 - i) with
  | none => none
  | some rbs =>
    match allSome (rows.map (fun r => r.scored.base.monetary)) with
    | none => none
    | some ms =>
      match pdQcut ms 3 (fun i => 3 - i) with
      | none => none
      | some vbs =>
        some (((rows.zip rbs).zip vbs).map
          (fun p => ⟨p.1.1, p.1.2, p.2, priority p.1.2 p.2⟩))

/-- A fully assembled output row with the value_at_risk column of line 281. -/
structure FinalRow where
  banded : Banded
  value_at_risk : Option ℚ
deriving DecidableEq, Repr

/-- scored["value_at_risk"] = scored["monetary"] * scored["churn_risk"]
(line 281); a NaN monetary gives a NaN product. -/
def addValueAtRisk (b : Banded) : FinalRow :=
  ⟨b, b.deciled.scored.base.monetary.map (fun m => m * b.deciled.scored.churn_risk)⟩

/-- The in-memory part of main of 02_churn_model.py (lines 249-281): load
and clean, train and score, add the risk decile, assign priority bands, and
compute value at risk.  Every failure of a step aborts the pipeline. -/
def churn_pipeline
    (learner : List FeatVec → List ℕ → Except PipeError (FeatVec → ℚ))
    (raws : List RawRow) : Except PipeError (List FinalRow) :=
  match train_and_score learner (load_training_frame raws) with
  | .error e => .error e
  | .ok scored =>
    match addRiskDecile scored with
    | none => .error .binEdges
    | some deciled =>
      match assign_priority_band deciled with
      | none => .error .binEdges
      | some banded => .ok (banded.map addValueAtRisk)

/-- main of 02_churn_model.py (lines 249-284): the whole pipeline runs in
memory, then a single write_back call issues the one to_sql write of
customer_churn_scores. -/
def churn_main
    (learner : List FeatVec → List ℕ → Except PipeError (FeatVec → ℚ))
    (writeOk : String → Bool) (raws : List RawRow) :
    List String × Option PipeError :=
  match churn_pipeline learner raws with
  | .error e => ([], some e)
  | .ok _final => writeSeq writeOk ["customer_churn_scores"]

/-- Group sizes of a three-way banding differ pairwise by at most r. -/
def balanced3 (bs : List ℕ) (r : ℕ) : Prop :=
  bs.count 1 ≤ bs.count 2 + r ∧ bs.count 2 ≤ bs.count 1 + r ∧
  bs.count 1 ≤ bs.count 3 + r ∧ bs.count 3 ≤ bs.count 1 + r ∧
  bs.count 2 ≤ bs.count 3 + r ∧ bs.count 3 ≤ bs.count 2 + r

/-
Concrete inputs used by witnesses and counterexamples.
-/

/-- A complete raw row: every numeric column observed, so that only the
deliberately missing entries drive the imputation under test. -/
def fullRow (freq mon recency : ℚ) (adbo : Option ℚ) : RawRow :=
  { customer_unique_id := "c"
    frequency := some freq
    monetary := some mon
    avg_order_value := some 1
    avg_items_per_order := some 1
    avg_category_diversity := some 1
    tenure_days := some 1
    avg_days_between_orders := adbo
    recency_days := some recency
    segment_name := some "Champions"
    spend_30d := some 0
    spend_90d := some 0
    spend_180d := some 0
    orders_30d := some 0
    orders_90d := some 0
    orders_180d := some 0
    recent_order_ratio := some 0
    recent_spend_ratio := some 0 }

/-- Churn-script input for the sentinel-versus-median check: one customer
with no repeat purchase (missing avg_days_between_orders) and two with
observed gaps 10 and 20. -/
def c1churnRows : List RawRow :=
  [fullRow 1 1 50 none, fullRow 1 1 200 (some 10), fullRow 1 1 210 (some 20)]

/-- Segmentation-script input with the same avg_days_between_orders column
and all other required columns complete. -/
def c1segFrame : Frame :=
  [("recency_days", [some 50, some 200, some 210]),
   ("frequency", [some 1, some 1, some 1]),
   ("monetary", [some 1, some 1, some 1]),
   ("avg_order_value", [some 1, some 1, some 1]),
   ("avg_items_per_order", [some 1, some 1, some 1]),
   ("avg_category_diversity", [some 1, some 1, some 1]),
   ("tenure_days", [some 1, some 1, some 1]),
   ("avg_days_between_orders", [none, some 10, some 20])]

/-- Two customers whose recency is below the churn threshold: the derived
label is single-class. -/
def c3raws : List RawRow := [fullRow 1 10 50 (some 5), fullRow 2 20 60 (some 6)]

/-- A one-customer frame holding every required feature column. -/
def c4frame : Frame := FEATURES.map (fun c => (c, [some 1]))

/-- An opaque clustering step that assigns the single customer cluster 0. -/
def c4cluster : Frame → List String → Except PipeError (List ℕ) := fun _ _ => .ok [0]

/-- A sink that accepts the customer_segments write and then refuses the
segment_profile write. -/
def c4writeOk : String → Bool := fun n => n == "customer_segments"

/-- Churn-script input with the recency vector of end-to-end scenario 4. -/
def c5raws : List RawRow :=
  [fullRow 1 1 50 (some 5), fullRow 1 1 180 (some 5),
   fullRow 1 1 200 (some 5), fullRow 1 1 179 (some 5)]

/-- A learner whose fitted scorer reads one feature, for concrete runs. -/
def c8learner : List FeatVec → List ℕ → Except PipeError (FeatVec → ℚ) :=
  fun _ _ => .ok (fun v => v.frequency.getD 0 / 10)

/-- Four customers with both label classes twice over, distinct frequencies
(hence distinct scores) and distinct monetary values, so the whole churn
pipeline succeeds; the third row has monetary 100 and score 3/10. -/
def c8raws : List RawRow :=
  [fullRow 1 50 50 (some 5), fullRow 2 60 60 (some 6),
   fullRow 3 100 200 (some 7), fullRow 4 70 210 (some 8)]

/-- A learner whose scorer uses a 30-day feature and the label list. -/
def c9learner : List FeatVec → List ℕ → Except PipeError (FeatVec → ℚ) :=
  fun _ y => .ok (fun v => v.spend_30d.getD 0 + (y.count 1 : ℚ))

/-- Two rows for the noninterference check. -/
def c9rows1 : List RawRow := [fullRow 1 10 50 (some 5), fullRow 2 20 200 (some 6)]

/-- The same two rows with different 180-day window values. -/
def c9rows2 : List RawRow :=
  [{ fullRow 1 10 50 (some 5) with spend_180d := some 77, orders_180d := some 9 },
   { fullRow 2 20 200 (some 6) with spend_180d := some 88, orders_180d := none }]

/-- Six customers with distinct churn risks and the tied monetary column
1, 2, 2, 3, 4, 5 that breaks the tertile balance. -/
def c7rows : List Deciled :=
  [⟨⟨fullRow 1 1 50 (some 5), 1⟩, 0⟩,
   ⟨⟨fullRow 2 2 60 (some 5), 2⟩, 1⟩,
   ⟨⟨fullRow 3 2 70 (some 5), 3⟩, 2⟩,
   ⟨⟨fullRow 4 3 80 (some 5), 4⟩, 3⟩,
   ⟨⟨fullRow 5 4 90 (some 5), 5⟩, 4⟩,
   ⟨⟨fullRow 6 5 95 (some 5), 6⟩, 5⟩]

/-- Six customers with pairwise distinct churn risks and monetary values. -/
def c7distinctRows : List Deciled :=
  [⟨⟨fullRow 1 1 50 (some 5), 1⟩, 0⟩,
   ⟨⟨fullRow 2 2 60 (some 5), 2⟩, 1⟩,
   ⟨⟨fullRow 3 6 70 (some 5), 3⟩, 2⟩,
   ⟨⟨fullRow 4 3 80 (some 5), 4⟩, 3⟩,
   ⟨⟨fullRow 5 4 90 (some 5), 5⟩, 4⟩,
   ⟨⟨fullRow 6 5 95 (some 5), 6⟩, 5⟩]

/-
Helper lemmas.  The rational arithmetic of Mathlib does not reduce
definitionally, so concrete runs are evaluated through simp and norm_num;
the first lemmas below keep that evaluation at the level of booleans and
list constructors.
-/

lemma hasNA_nil : hasNA [] = false := rfl

lemma hasNA_cons (x : Option ℚ) (t : Col) : hasNA (x :: t) = (x.isNone || hasNA t) := by
  simp [hasNA]

lemma presentVals_nil : presentVals [] = [] := rfl

lemma presentVals_cons_some (a : ℚ) (t : Col) :
    presentVals (some a :: t) = a :: presentVals t := rfl

lemma presentVals_cons_none (t : Col) : presentVals (none :: t) = presentVals t := rfl

lemma strictAsc_pair (a b : ℚ) (t : List ℚ) :
    strictAsc (a :: b :: t) = (decide (a < b) && strictAsc (b :: t)) := rfl

lemma strictAsc_one (a : ℚ) : strictAsc [a] = true := rfl

/-- A successful allSome extraction preserves length. -/
lemma allSome_length :
    ∀ (l : List (Option ℚ)) (res : List ℚ), allSome l = some res → res.length = l.length := by
  intro l
  induction l with
  | nil =>
    intro res h
    simp [allSome] at h
    simp [← h]
  | cons a t ih =>
    intro res h
    cases a with
    | none => simp [allSome] at h
    | some x =>
      simp only [allSome] at h
      cases ht : allSome t with
      | none => rw [ht] at h; simp at h
      | some bs =>
        rw [ht] at h
        simp at h
        simp [← h, ih bs ht]

/-- Projections of a doubly zipped list of equal lengths. -/
lemma zip_zip_proj {α β γ : Type} :
    ∀ (as : List α) (bs : List β) (cs : List γ),
      bs.length = as.length → cs.length = as.length →
      ((as.zip bs).zip cs).map (fun p => p.1.1) = as ∧
      ((as.zip bs).zip cs).map (fun p => p.1.2) = bs ∧
      ((as.zip bs).zip cs).map (fun p => p.2) = cs := by
  intro as
  induction as with
  | nil => intro bs cs h1 h2; simp_all [List.length_eq_zero.mp]
  | cons a t ih =>
    intro bs cs h1 h2
    cases bs with
    | nil => simp at h1
    | cons b tb =>
      cases cs with
      | nil => simp at h2
      | cons c tc =>
        simp at h1 h2
        obtain ⟨e1, e2, e3⟩ := ih tb tc h1 h2
        simp [e1, e2, e3]

/-- A successful pdQcut returns one band per input element. -/
lemma pdQcut_length {xs : List ℚ} {q : ℕ} {labels : ℕ → ℕ} {bs : List ℕ}
    (h : pdQcut xs q labels = some bs) : bs.length = xs.length := by
  simp only [pdQcut] at h
  split at h
  · simp at h
    simp [← h]
  · simp at h

/-- A median-imputation step leaves every untouched field unchanged. -/
lemma fillFieldMedian_map {β : Type} (get : RawRow → Option ℚ)
    (set : RawRow → Option ℚ → RawRow) (proj : RawRow → β)
    (h : ∀ r v, proj (set r v) = proj r) (rows : List RawRow) :
    (fillFieldMedian get set rows).map proj = rows.map proj := by
  simp only [fillFieldMedian]
  split
  · split
    · rfl
    · simp [List.map_map, h]
  · rfl

/-- A zero-imputation step leaves every untouched field unchanged. -/
lemma fillFieldZero_map {β : Type} (get : RawRow → Option ℚ)
    (set : RawRow → Option ℚ → RawRow) (proj : RawRow → β)
    (h : ∀ r v, proj (set r v) = proj r) (rows : List RawRow) :
    (fillFieldZero get set rows).map proj = rows.map proj := by
  simp only [fillFieldZero]
  split
  · simp [List.map_map, h]
  · rfl

/-- The churned column of the cleaned churn frame is, row for row, the label
rule applied to the raw recency column: no cleaning step before line 102
touches recency_days, and the segment fill after it does not touch churned. -/
lemma load_training_frame_churned (raws : List RawRow) :
    (load_training_frame raws).map (fun r => r.churned) =
    raws.map (fun r => churnLabel r.recency_days) := by
  have hz1 : ∀ rows : List RawRow,
      (fillFieldZero (fun r => r.orders_90d) (fun r v => { r with orders_90d := v }) rows).map
        (fun r => churnLabel r.recency_days) = rows.map (fun r => churnLabel r.recency_days) :=
    by intro rows; apply fillFieldZero_map; intro r v; rfl
  have hz2 : ∀ rows : List RawRow,
      (fillFieldZero (fun r => r.orders_30d) (fun r v => { r with orders_30d := v }) rows).map
        (fun r => churnLabel r.recency_days) = rows.map (fun r => churnLabel r.recency_days) :=
    by intro rows; apply fillFieldZero_map; intro r v; rfl
  have hz3 : ∀ rows : List RawRow,
      (fillFieldZero (fun r => r.spend_90d) (fun r v => { r with spend_90d := v }) rows).map
        (fun r => churnLabel r.recency_days) = rows.map (fun r => churnLabel r.recency_days) :=
    by intro rows; apply fillFieldZero_map; intro r v; rfl
  have hz4 : ∀ rows : List RawRow,
      (fillFieldZero (fun r => r.spend_30d) (fun r v => { r with spend_30d := v }) rows).map
        (fun r => churnLabel r.recency_days) = rows.map (fun r => churnLabel r.recency_days) :=
    by intro rows; apply fillFieldZero_map; intro r v; rfl
  have hm1 : ∀ rows : List RawRow,
      (fillFieldMedian (fun r => r.avg_days_between_orders)
        (fun r v => { r with avg_days_between_orders := v }) rows).map
        (fun r => churnLabel r.recency_days) = rows.map (fun r => churnLabel r.recency_days) :=
    by intro rows; apply fillFieldMedian_map; intro r v; rfl
  have hm2 : ∀ rows : List RawRow,
      (fillFieldMedian (fun r => r.tenure_days) (fun r v => { r with tenure_days := v }) rows).map
        (fun r => churnLabel r.recency_days) = rows.map (fun r => churnLabel r.recency_days) :=
    by intro rows; apply fillFieldMedian_map; intro r v; rfl
  have hm3 : ∀ rows : List RawRow,
      (fillFieldMedian (fun r => r.avg_category_diversity)
        (fun r v => { r with avg_category_diversity := v }) rows).map
        (fun r => churnLabel r.recency_days) = rows.map (fun r => churnLabel r.recency_days) :=
    by intro rows; apply fillFieldMedian_map; intro r v; rfl
  have hm4 : ∀ rows : List RawRow,
      (fillFieldMedian (fun r => r.avg_items_per_order)
        (fun r v => { r with avg_items_per_order := v }) rows).map
        (fun r => churnLabel r.recency_days) = rows.map (fun r => churnLabel r.recency_days) :=
    by intro rows; apply fillFieldMedian_map; intro r v; rfl
  have hm5 : ∀ rows : List RawRow,
      (fillFieldMedian (fun r => r.avg_order_value)
        (fun r v => { r with avg_order_value := v }) rows).map
        (fun r => churnLabel r.recency_days) = rows.map (fun r => churnLabel r.recency_days) :=
    by intro rows; apply fillFieldMedian_map; intro r v; rfl
  have hm6 : ∀ rows : List RawRow,
      (fillFieldMedian (fun r => r.monetary) (fun r v => { r with monetary := v }) rows).map
        (fun r => churnLabel r.recency_days) = rows.map (fun r => churnLabel r.recency_days) :=
    by intro rows; apply fillFieldMedian_map; intro r v; rfl
  have hm7 : ∀ rows : List RawRow,
      (fillFieldMedian (fun r => r.frequency) (fun r v => { r with frequency := v }) rows).map
        (fun r => churnLabel r.recency_days) = rows.map (fun r => churnLabel r.recency_days) :=
    by intro rows; apply fillFieldMedian_map; intro r v; rfl
  have a1 : ∀ rows : List RawRow,
      (rows.map (fun r => { r with segment_name := some (r.segment_name.getD "Unknown") })).map
        (fun r => r.churned) = rows.map (fun r => r.churned) := by
    intro rows; rw [List.map_map]; rfl
  have a2 : ∀ rows : List RawRow,
      (rows.map (fun r => { r with churned := churnLabel r.recency_days })).map
        (fun r => r.churned) = rows.map (fun r => churnLabel r.recency_days) := by
    intro rows; rw [List.map_map]; rfl
  have a3 : ∀ rows : List RawRow,
      (rows.map (fun r =>
        { r with avg_days_between_orders := some (r.avg_days_between_orders.getD 9999) })).map
        (fun r => churnLabel r.recency_days) = rows.map (fun r => churnLabel r.recency_days) := by
    intro rows; rw [List.map_map]; rfl
  simp only [load_training_frame]
  rw [a1, a2, a3, hz1, hz2, hz3, hz4, hm1, hm2, hm3, hm4, hm5, hm6, hm7]

/-
Claim theorems.
-/

/-- Claim C2: segment naming is a pure function of the rank triple: the
source naming rule factors through (value_rank, freq_rank, recency_rank)
via the spec decision table, name_segments applies exactly that rule
row-wise, and a profile row with value_rank 1, freq_rank 5, recency_rank 5
is named At-Risk High Value (rule 2 fires before the default rule 5). -/
theorem C2_segment_naming_pure :
    (∀ r : ProfileRow,
        segment_name r = specNameOfRankTriple r.value_rank r.freq_rank r.recency_rank) ∧
    (∀ prof : List ProfileRow,
        (name_segments prof).map (fun r => r.segment_name) = prof.map segment_name) ∧
    segment_name { value_rank := 1, freq_rank := 5, recency_rank := 5 } = "At-Risk High Value" := by
  refine ⟨fun r => rfl, fun prof => ?_, by decide⟩
  simp [name_segments, List.map_map]

/-- Claim C6 (part of the statement): the source priority rule agrees with
the fixed decision table of the spec on every band pair, in every output of
assign_priority_band the priority_band column is exactly the priority rule
applied to the risk_band and value_band columns, and the rule always
returns one of HIGH, MEDIUM, LOW. -/
theorem C6_priority_band_rule :
    (∀ rb vb : ℕ, priority rb vb = priorityBandSpec rb vb) ∧
    (∀ rows : List Deciled,
        ((assign_priority_band rows).getD []).map (fun b => b.priority_band) =
        ((assign_priority_band rows).getD []).map (fun b => priority b.risk_band b.value_band)) ∧
    (∀ rb vb : ℕ,
        priority rb vb = "HIGH" ∨ priority rb vb = "MEDIUM" ∨ priority rb vb = "LOW") := by
  refine ⟨fun rb vb => ?_, fun rows => ?_, fun rb vb => ?_⟩
  · simp only [priority, priorityBandSpec, Prod.mk.injEq]
    split_ifs <;> first | rfl | omega
  · cases h1 : pdQcut (rows.map (fun r => r.scored.churn_risk)) 3 (fun i => 3 - i) with
    | none => simp [assign_priority_band, h1]
    | some rbs =>
      cases h2 : allSome (rows.map (fun r => r.scored.base.monetary)) with
      | none => simp [assign_priority_band, h1, h2]
      | some ms =>
        cases h3 : pdQcut ms 3 (fun i => 3 - i) with
        | none => simp [assign_priority_band, h1, h2, h3]
        | some vbs => simp [assign_priority_band, h1, h2, h3, List.map_map]
  · simp only [priority]
    split_ifs <;> simp

/-- Claim C10: assign_priority_band is non-destructive: whenever it returns,
projecting the output rows back onto their pre-existing columns gives back
exactly the input rows, in order; the three band columns are the only
additions (by the shape of the Banded record), and the source operates on
df.copy(), which the pure embedding reflects by never touching the caller
value. -/
theorem C10_assign_priority_band_frame :
    ∀ rows : List Deciled,
      ((assign_priority_band rows).map (List.map (fun b => b.deciled))).getD rows = rows := by
  intro rows
  cases h1 : pdQcut (rows.map (fun r => r.scored.churn_risk)) 3 (fun i => 3 - i) with
  | none => simp [assign_priority_band, h1]
  | some rbs =>
    cases h2 : allSome (rows.map (fun r => r.scored.base.monetary)) with
    | none => simp [assign_priority_band, h1, h2]
    | some ms =>
      cases h3 : pdQcut ms 3 (fun i => 3 - i) with
      | none => simp [assign_priority_band, h1, h2, h3]
      | some vbs =>
        have hr : rbs.length = rows.length := by
          simpa using pdQcut_length h1
        have hm : ms.length = rows.length := by
          simpa using allSome_length _ ms h2
        have hv : vbs.length = rows.length := by
          have := pdQcut_length h3
          omega
        have hz := (zip_zip_proj rows rbs vbs hr hv).1
        simp [assign_priority_band, h1, h2, h3, List.map_map]
        exact hz

/-- Claim C5: the churn label of every customer row is the definitional rule
churned = (recency_days at least CHURN_THRESHOLD_DAYS), with threshold 180,
computed from recency_days alone by the cleaning stage and never learned;
on the recency vector 50, 180, 200, 179 the labels are 0, 1, 1, 0. -/
theorem C5_churn_label_definitional :
    (∀ raws : List RawRow,
        (load_training_frame raws).map (fun r => r.churned) =
        raws.map (fun r => churnLabel r.recency_days)) ∧
    (∀ r : ℚ, churnLabel (some r) = if CHURN_THRESHOLD_DAYS ≤ r then 1 else 0) ∧
    CHURN_THRESHOLD_DAYS = 180 ∧
    (load_training_frame c5raws).map (fun r => r.churned) = [0, 1, 1, 0] := by
  refine ⟨load_training_frame_churned, fun r => rfl, rfl, by decide⟩

/-- Claim C1: the claim holds for the segmentation script but fails for the
churn script, whose own comment at line 98 promises to keep the 9999 signal.
On a column with one missing and two observed values (10 and 20), the
segmentation cleaning yields the sentinel 9999, while the churn cleaning
yields the column median 15, because the median loop of lines 89-91 runs
over avg_days_between_orders before the sentinel fill of line 99. -/
theorem C1_sentinel_vs_median :
    (load_training_frame c1churnRows).map (fun r => r.avg_days_between_orders) =
      [some 15, some 10, some 20] ∧
    median [10, 20] = 15 ∧
    (some (15 : ℚ) ≠ some (9999 : ℚ)) ∧
    (clean_features id c1segFrame).toOption.map (fun p => getCol p.1 "avg_days_between_orders") =
      some (some [some 9999, some 10, some 20]) := by
  refine ⟨?_, ?_, by decide, ?_⟩
  · norm_num [c1churnRows, fullRow, load_training_frame, fillFieldMedian, fillFieldZero,
      hasNA_cons, hasNA_nil, presentVals_cons_some, presentVals_cons_none, presentVals_nil,
      medianNA, fillna, median, sortedAsc, churnLabel,
      CHURN_THRESHOLD_DAYS, List.insertionSort, List.orderedInsert]
  · norm_num [median, sortedAsc, List.insertionSort, List.orderedInsert]
  · decide

/-- Claim C8: in every successful churn pipeline run the value_at_risk
column is exactly the rowwise product of the monetary column and the
churn_risk column (NaN monetary propagates to NaN value_at_risk). -/
theorem C8_value_at_risk_product :
    ∀ (learner : List FeatVec → List ℕ → Except PipeError (FeatVec → ℚ))
      (raws : List RawRow) (F : List FinalRow),
      churn_pipeline learner raws = .ok F →
      F.map (fun fr => fr.value_at_risk) =
      F.map (fun fr => fr.banded.deciled.scored.base.monetary.map
        (fun m => m * fr.banded.deciled.scored.churn_risk)) := by
  intro learner raws F h
  unfold churn_pipeline at h
  cases ht : train_and_score learner (load_training_frame raws) with
  | error e => rw [ht] at h; simp at h
  | ok scored =>
    rw [ht] at h
    dsimp only at h
    cases hd : addRiskDecile scored with
    | none => rw [hd] at h; simp at h
    | some deciled =>
      rw [hd] at h
      dsimp only at h
      cases hb : assign_priority_band deciled with
      | none => rw [hb] at h; simp at h
      | some banded =>
        rw [hb] at h
        dsimp only at h
        simp only [Except.ok.injEq] at h
        subst h
        simp [List.map_map, addValueAtRisk]

set_option maxHeartbeats 3000000 in
/-- Witness for C8: a concrete four-customer run in which the pipeline
succeeds, the product law holds, and in particular the customer with
monetary 100 and churn risk 3/10 has value_at_risk exactly 30. -/
theorem C8_value_at_risk_product_witness :
    ∃ F, churn_pipeline c8learner c8raws = .ok F ∧
      F.map (fun fr => fr.value_at_risk) =
        F.map (fun fr => fr.banded.deciled.scored.base.monetary.map
          (fun m => m * fr.banded.deciled.scored.churn_risk)) ∧
      F.map (fun fr => fr.value_at_risk) = [some 5, some 12, some 30, some 28] := by
  have hx : Except.map (List.map (fun fr => fr.value_at_risk))
      (churn_pipeline c8learner c8raws) = .ok [some 5, some 12, some 30, some 28] := by
    have hf0 : (⌊(3:ℚ)/10⌋₊ : ℕ) = 0 := by rw [Nat.floor_eq_iff (by norm_num)]; norm_num
    have hf1 : (⌊(3:ℚ)/5⌋₊ : ℕ) = 0 := by rw [Nat.floor_eq_iff (by norm_num)]; norm_num
    have hf2 : (⌊(9:ℚ)/10⌋₊ : ℕ) = 0 := by rw [Nat.floor_eq_iff (by norm_num)]; norm_num
    have hf3 : (⌊(6:ℚ)/5⌋₊ : ℕ) = 1 := by rw [Nat.floor_eq_iff (by norm_num)]; norm_num
    have hf4 : (⌊(3:ℚ)/2⌋₊ : ℕ) = 1 := by rw [Nat.floor_eq_iff (by norm_num)]; norm_num
    have hf5 : (⌊(9:ℚ)/5⌋₊ : ℕ) = 1 := by rw [Nat.floor_eq_iff (by norm_num)]; norm_num
    have hf6 : (⌊(21:ℚ)/10⌋₊ : ℕ) = 2 := by rw [Nat.floor_eq_iff (by norm_num)]; norm_num
    have hf7 : (⌊(12:ℚ)/5⌋₊ : ℕ) = 2 := by rw [Nat.floor_eq_iff (by norm_num)]; norm_num
    have hf8 : (⌊(27:ℚ)/10⌋₊ : ℕ) = 2 := by rw [Nat.floor_eq_iff (by norm_num)]; norm_num
    have hg1 : (⌊(1:ℚ)⌋₊ : ℕ) = 1 := by rw [Nat.floor_eq_iff (by norm_num)]; norm_num
    have hg2 : (⌊(2:ℚ)⌋₊ : ℕ) = 2 := by rw [Nat.floor_eq_iff (by norm_num)]; norm_num
    norm_num [hf0, hf1, hf2, hf3, hf4, hf5, hf6, hf7, hf8, hg1, hg2,
      churn_pipeline, c8learner, c8raws, fullRow, load_training_frame,
      fillFieldMedian, fillFieldZero, hasNA_cons, hasNA_nil, presentVals_cons_some,
      presentVals_cons_none, presentVals_nil, medianNA, fillna, median, sortedAsc,
      churnLabel, CHURN_THRESHOLD_DAYS, train_and_score, featuresOf, addRiskDecile,
      pdQcut, quantileLin, strictAsc_pair, strictAsc_one, List.insertionSort,
      List.orderedInsert, List.range_succ, assign_priority_band, allSome, priority,
      addValueAtRisk, Except.map]
  cases h : churn_pipeline c8learner c8raws with
  | error e =>
    rw [h] at hx
    simp [Except.map] at hx
  | ok F =>
    refine ⟨F, rfl, C8_value_at_risk_product c8learner c8raws F h, ?_⟩
    rw [h] at hx
    simpa [Except.map] using hx

/-- Claim C9: the feature matrix of train_and_score contains only the 30-day
and 90-day windowed columns, so two input tables that differ only in
spend_180d and orders_180d receive identical churn risk scores, for every
possible fitted model. -/
theorem C9_180d_noninterference :
    ∀ (learner : List FeatVec → List ℕ → Except PipeError (FeatVec → ℚ))
      (rows1 rows2 : List RawRow),
      List.Forall₂ (fun a b =>
        b = { a with spend_180d := b.spend_180d, orders_180d := b.orders_180d }) rows1 rows2 →
      Except.map (List.map (fun s => s.churn_risk)) (train_and_score learner rows1) =
      Except.map (List.map (fun s => s.churn_risk)) (train_and_score learner rows2) := by
  intro learner rows1 rows2 h
  have hX : rows1.map featuresOf = rows2.map featuresOf := by
    induction h with
    | nil => rfl
    | cons hr ht ih =>
      simp only [List.map_cons, ih]
      rw [hr]
      rfl
  have hy : rows1.map (fun r => r.churned) = rows2.map (fun r => r.churned) := by
    clear hX
    induction h with
    | nil => rfl
    | cons hr ht ih =>
      rw [hr]
      simp only [List.map_cons, ih]
  simp only [train_and_score]
  rw [hX, hy]
  split
  · rfl
  · split
    · rfl
    · cases hl : learner (rows2.map featuresOf) (rows2.map (fun r => r.churned)) with
      | error e => rfl
      | ok predict =>
        have e1 : rows1.map (fun r => predict (featuresOf r)) =
            (rows1.map featuresOf).map predict := by
          simp [List.map_map]
        have e2 : rows2.map (fun r => predict (featuresOf r)) =
            (rows2.map featuresOf).map predict := by
          simp [List.map_map]
        simp only [Except.map, List.map_map]
        have : rows1.map (fun r => predict (featuresOf r)) =
            rows2.map (fun r => predict (featuresOf r)) := by
          rw [e1, e2, hX]
        simpa [Function.comp] using this

/-- Witness for C9: two concrete two-row tables differing only in their
180-day columns get identical score vectors under a concrete learner. -/
theorem C9_180d_noninterference_witness :
    Except.map (List.map (fun s => s.churn_risk)) (train_and_score c9learner c9rows1) =
    Except.map (List.map (fun s => s.churn_risk)) (train_and_score c9learner c9rows2) := by
  refine C9_180d_noninterference c9learner c9rows1 c9rows2 ?_
  refine List.Forall₂.cons (by decide) (List.Forall₂.cons (by decide) List.Forall₂.nil)

/-- Column lookups are unchanged by assignment to a different column. -/
lemma getCol_setCol_ne (f : Frame) (c c0 : String) (v : Col) (hne : c ≠ c0) :
    getCol (setCol f c0 v) c = getCol f c := by
  have hb : (c == c0) = false := by
    simp [hne]
  induction f with
  | nil => simp [setCol, getCol, List.lookup_cons, List.lookup_nil, hb]
  | cons p t ih =>
    obtain ⟨k, w⟩ := p
    by_cases hk : k = c0
    · subst hk
      simp [setCol, getCol, List.lookup_cons, hb]
    · simp only [setCol, if_neg hk]
      simp only [getCol, List.lookup_cons] at ih ⊢
      by_cases hc : c = k
      · subst hc
        simp
      · have hbk : (c == k) = false := by simp [hc]
        simp [hbk, ih]

/-- Every failure of the coercion loop is a missing-column error. -/
lemma coerceCols_error_shape :
    ∀ (cs : List String) (f : Frame) (e : PipeError),
      coerceCols cs f = .error e → ∃ c2, e = .missingColumn c2 := by
  intro cs
  induction cs with
  | nil => intro f e h; simp [coerceCols] at h
  | cons c rest ih =>
    intro f e h
    unfold coerceCols at h
    cases hg : getCol f c with
    | none =>
      rw [hg] at h
      dsimp only at h
      exact ⟨c, (Except.error.injEq _ _).mp h.symm⟩
    | some v =>
      rw [hg] at h
      dsimp only at h
      exact ih _ _ h

/-- If the coercion loop succeeds, every required column was present. -/
lemma coerceCols_ok_present :
    ∀ (cs : List String) (f f2 : Frame),
      coerceCols cs f = .ok f2 → ∀ c ∈ cs, getCol f c ≠ none := by
  intro cs
  induction cs with
  | nil => simp
  | cons c0 rest ih =>
    intro f f2 h c hc
    unfold coerceCols at h
    cases hg : getCol f c0 with
    | none => rw [hg] at h; simp at h
    | some v =>
      rw [hg] at h
      dsimp only at h
      rcases List.mem_cons.mp hc with rfl | hmem
      · simp [hg]
      · by_cases hc0 : c = c0
        · subst hc0; simp [hg]
        · have := ih (setCol f c0 (to_numeric v)) f2 h c hmem
          rwa [getCol_setCol_ne f c c0 (to_numeric v) hc0] at this

/-- A required feature column missing from the input makes clean_features
fail with a missing-column error. -/
lemma clean_features_missing (log1p : ℚ → ℚ) (f : Frame)
    (h : ∃ c ∈ FEATURES, getCol f c = none) :
    ∃ c2, clean_features log1p f = .error (.missingColumn c2) := by
  obtain ⟨c, hc, hnone⟩ := h
  cases hcc : coerceCols FEATURES f with
  | error e =>
    obtain ⟨c2, rfl⟩ := coerceCols_error_shape FEATURES f e hcc
    refine ⟨c2, ?_⟩
    unfold clean_features
    rw [hcc]
  | ok f2 => exact absurd hnone (coerceCols_ok_present FEATURES f f2 hcc c hc)

/-- A single-class churn label makes train_and_score fail before fitting:
either the stratified split rejects a singleton class or the classifier
rejects the single-class label. -/
lemma train_single_class
    (learner : List FeatVec → List ℕ → Except PipeError (FeatVec → ℚ))
    (df : List RawRow)
    (h : (∀ r ∈ df, r.churned = 0) ∨ (∀ r ∈ df, r.churned = 1)) :
    ∃ e, train_and_score learner df = .error e := by
  unfold train_and_score
  by_cases h1 : ((df.map (fun r => r.churned)).count 0 = 1 ∨
      (df.map (fun r => r.churned)).count 1 = 1)
  · rw [if_pos h1]
    exact ⟨_, rfl⟩
  · rw [if_neg h1]
    have h2 : ¬ ((0 : ℕ) ∈ df.map (fun r => r.churned) ∧
        (1 : ℕ) ∈ df.map (fun r => r.churned)) := by
      rintro ⟨h0, hone⟩
      rcases h with hall | hall
      · obtain ⟨r, hr, hre⟩ := List.mem_map.mp hone
        have := hall r hr
        omega
      · obtain ⟨r, hr, hre⟩ := List.mem_map.mp h0
        have := hall r hr
        omega
    rw [if_pos h2]
    exact ⟨_, rfl⟩

/-- The write log always fails with a connectivity error if it fails. -/
lemma writeSeq_error_connectivity :
    ∀ (w : String → Bool) (l : List String) (e : PipeError),
      (writeSeq w l).2 = some e → e = .connectivity := by
  intro w l
  induction l with
  | nil => intro e h; simp [writeSeq] at h
  | cons n rest ih =>
    intro e h
    unfold writeSeq at h
    by_cases hw : w n
    · rw [if_pos hw] at h
      dsimp only at h
      exact ih e h
    · rw [if_neg hw] at h
      dsimp only at h
      exact ((Option.some.injEq _ _).mp h.symm).symm ▸ rfl

/-- Claim C3: the pipelines fail fatally before any write on a DataError:
clean_features raises a missing-column error when a required feature column
is absent, and then the segmentation main writes nothing; train_and_score
raises when the derived churn label has a single class, and then the churn
main writes nothing. -/
theorem C3_data_errors :
    (∀ (log1p : ℚ → ℚ) (f : Frame), (∃ c ∈ FEATURES, getCol f c = none) →
        ∃ c2, clean_features log1p f = .error (.missingColumn c2)) ∧
    (∀ (cluster : Frame → List String → Except PipeError (List ℕ)) (log1p : ℚ → ℚ)
        (writeOk : String → Bool) (f : Frame), (∃ c ∈ FEATURES, getCol f c = none) →
        ∃ c2, seg_main cluster log1p writeOk f = ([], some (.missingColumn c2))) ∧
    (∀ (learner : List FeatVec → List ℕ → Except PipeError (FeatVec → ℚ))
        (df : List RawRow),
        ((∀ r ∈ df, r.churned = 0) ∨ (∀ r ∈ df, r.churned = 1)) →
        ∃ e, train_and_score learner df = .error e) ∧
    (∀ (learner : List FeatVec → List ℕ → Except PipeError (FeatVec → ℚ))
        (writeOk : String → Bool) (raws : List RawRow),
        ((∀ r ∈ load_training_frame raws, r.churned = 0) ∨
          (∀ r ∈ load_training_frame raws, r.churned = 1)) →
        (churn_main learner writeOk raws).1 = [] ∧
          ∃ e, (churn_main learner writeOk raws).2 = some e) := by
  refine ⟨clean_features_missing, ?_, train_single_class, ?_⟩
  · intro cluster log1p writeOk f h
    obtain ⟨c2, hcf⟩ := clean_features_missing log1p f h
    refine ⟨c2, ?_⟩
    unfold seg_main
    rw [hcf]
  · intro learner writeOk raws h
    obtain ⟨e, hts⟩ := train_single_class learner (load_training_frame raws) h
    unfold churn_main churn_pipeline
    rw [hts]
    exact ⟨rfl, e, rfl⟩

/-- Witness for C3: on an empty input frame the segmentation main aborts
with a missing-column error and writes nothing; on a two-customer input
whose recencies are both below the threshold the churn main aborts with a
single-class error and writes nothing. -/
theorem C3_data_errors_witness :
    (∃ c2, seg_main (fun _ _ => .ok []) id (fun _ => true) [] =
      ([], some (.missingColumn c2))) ∧
    ((churn_main (fun _ _ => .error .binEdges) (fun _ => true) c3raws).1 = [] ∧
      ∃ e, (churn_main (fun _ _ => .error .binEdges) (fun _ => true) c3raws).2 = some e) := by
  refine ⟨C3_data_errors.2.1 (fun _ _ => .ok []) id (fun _ => true) []
      ⟨"recency_days", by decide, rfl⟩,
    C3_data_errors.2.2.2 (fun _ _ => .error .binEdges) (fun _ => true) c3raws ?_⟩
  left
  decide

/-- Claim C4 counterexample: a run of the segmentation main in which the
sink accepts the customer_segments write and then refuses the
segment_profile write ends with exactly one of the two output tables
written: a partially written output state is observable, refuting the
claim that a run either writes all results or fails before any write. -/
theorem C4_counterexample_incomplete_output :
    seg_main c4cluster id c4writeOk c4frame = (["customer_segments"], some .connectivity) ∧
    (["customer_segments"] : List String) ≠ [] ∧
    (["customer_segments"] : List String) ≠ ["customer_segments", "segment_profile"] := by
  refine ⟨by decide, by decide, by decide⟩

/-- Claim C4 as amended: all fitting and scoring happens before the first
write, so a failure anywhere in the compute phase aborts the run before any
write; the churn script issues a single write and is all-or-nothing; and
when the sink accepts every write the segmentation script also writes both
tables or nothing.  Only a sink failure between the two segmentation writes
leaves partial output, as the counterexample shows. -/
theorem C4_write_discipline :
    (∀ (cluster : Frame → List String → Except PipeError (List ℕ)) (log1p : ℚ → ℚ)
        (writeOk : String → Bool) (f : Frame) (e : PipeError),
        (seg_main cluster log1p writeOk f).2 = some e → e ≠ .connectivity →
        (seg_main cluster log1p writeOk f).1 = []) ∧
    (∀ (cluster : Frame → List String → Except PipeError (List ℕ)) (log1p : ℚ → ℚ)
        (writeOk : String → Bool) (f : Frame), (∀ n, writeOk n = true) →
        seg_main cluster log1p writeOk f = (["customer_segments", "segment_profile"], none) ∨
        (seg_main cluster log1p writeOk f).1 = []) ∧
    (∀ (learner : List FeatVec → List ℕ → Except PipeError (FeatVec → ℚ))
        (writeOk : String → Bool) (raws : List RawRow),
        (churn_main learner writeOk raws).1 = [] ∨
        churn_main learner writeOk raws = (["customer_churn_scores"], none)) := by
  refine ⟨?_, ?_, ?_⟩
  · intro cluster log1p writeOk f e h he
    unfold seg_main at h ⊢
    cases hcf : clean_features log1p f with
    | error e0 => rfl
    | ok pair =>
      obtain ⟨df, feats⟩ := pair
      rw [hcf] at h
      dsimp only at h ⊢
      cases hcl : cluster df feats with
      | error e0 => rfl
      | ok labels =>
        rw [hcl] at h
        dsimp only at h ⊢
        exact absurd (writeSeq_error_connectivity _ _ _ h) he
  · intro cluster log1p writeOk f hall
    unfold seg_main
    cases hcf : clean_features log1p f with
    | error e0 => right; rfl
    | ok pair =>
      obtain ⟨df, feats⟩ := pair
      dsimp only
      cases hcl : cluster df feats with
      | error e0 => right; rfl
      | ok labels =>
        left
        dsimp only
        simp [writeSeq, hall]
  · intro learner writeOk raws
    unfold churn_main
    cases hp : churn_pipeline learner raws with
    | error e => left; rfl
    | ok F =>
      dsimp only
      by_cases hw : writeOk "customer_churn_scores"
      · right; simp [writeSeq, hw]
      · left; simp [writeSeq, hw]

/-- Witness for C4: the three amended guarantees instantiated on concrete
runs: a compute failure (missing column) leaves the write log empty; with a
fully accepting sink the segmentation run is all-or-nothing; and a concrete
churn run is all-or-nothing. -/
theorem C4_write_discipline_witness :
    (seg_main c4cluster id (fun _ => true) []).1 = [] ∧
    (seg_main c4cluster id (fun _ => true) c4frame =
        (["customer_segments", "segment_profile"], none) ∨
      (seg_main c4cluster id (fun _ => true) c4frame).1 = []) ∧
    ((churn_main (fun _ _ => .error .binEdges) (fun _ => true) c3raws).1 = [] ∨
      churn_main (fun _ _ => .error .binEdges) (fun _ => true) c3raws =
        (["customer_churn_scores"], none)) := by
  refine ⟨C4_write_discipline.1 c4cluster id (fun _ => true) []
      (.missingColumn "recency_days") (by decide) (by decide),
    C4_write_discipline.2.1 c4cluster id (fun _ => true) c4frame (fun n => rfl),
    C4_write_discipline.2.2 (fun _ _ => .error .binEdges) (fun _ => true) c3raws⟩

/-- In a strictly sorted list, if position i is at most t and position i+1
(when it exists) is above t, then exactly i+1 entries are at most t. -/
lemma countP_le_of_sorted :
    ∀ (s : List ℚ), List.Sorted (· < ·) s → ∀ (i : ℕ) (hi : i < s.length) (t : ℚ),
      s.get ⟨i, hi⟩ ≤ t → (∀ hj : i + 1 < s.length, t < s.get ⟨i + 1, hj⟩) →
      s.countP (fun v => decide (v ≤ t)) = i + 1 := by
  intro s
  induction s with
  | nil => intro _ i hi; simp at hi
  | cons x rest ih =>
    intro hs i hi t hle hnext
    have hxr : ∀ y ∈ rest, x < y := List.rel_of_sorted_cons hs
    have hsr : List.Sorted (· < ·) rest := (List.sorted_cons.mp hs).2
    cases i with
    | zero =>
      have hxt : x ≤ t := hle
      have hz : rest.countP (fun v => decide (v ≤ t)) = 0 := by
        apply List.countP_eq_zero.mpr
        intro y hy
        cases rest with
        | nil => simp at hy
        | cons z rs =>
          have ht : t < z := by
            have := hnext (by simp)
            simpa using this
          have hzy : z ≤ y := by
            rcases List.mem_cons.mp hy with rfl | hmem
            · exact le_refl _
            · exact le_of_lt (List.rel_of_sorted_cons hsr y hmem)
          simp only [decide_eq_true_eq]
          intro hyt
          linarith
      simp [List.countP_cons, hz, hxt]
    | succ j =>
      have hj : j < rest.length := by simpa using hi
      have hget : rest.get ⟨j, hj⟩ ≤ t := hle
      have hxt : x ≤ t :=
        le_trans (le_of_lt (hxr _ (List.get_mem rest j hj))) hget
      have hrec := ih hsr j hj t hget (fun hj2 => by
        have := hnext (by simpa using Nat.succ_lt_succ hj2)
        simpa using this)
      simp [List.countP_cons, hrec, hxt]

/-- Counting entries at most t2 splits at any t1 below t2. -/
lemma countP_le_split (l : List ℚ) (t1 t2 : ℚ) (h : t1 ≤ t2) :
    l.countP (fun v => decide (v ≤ t2)) =
    l.countP (fun v => decide (v ≤ t1)) +
      l.countP (fun v => decide (t1 < v) && decide (v ≤ t2)) := by
  induction l with
  | nil => simp
  | cons x rest ih =>
    simp only [List.countP_cons, ih]
    by_cases h1 : x ≤ t1
    · have h2 : x ≤ t2 := le_trans h1 h
      have h3 : ¬ t1 < x := not_lt.mpr h1
      simp [h1, h2, h3]
      omega
    · by_cases h2 : x ≤ t2
      · have h3 : t1 < x := not_le.mp h1
        simp [h1, h2, h3]
        omega
      · simp [h1, h2]

/-- Entries at most t and entries above t partition the list. -/
lemma countP_le_add_gt (l : List ℚ) (t : ℚ) :
    l.countP (fun v => decide (v ≤ t)) + l.countP (fun v => decide (t < v)) = l.length := by
  induction l with
  | nil => simp
  | cons x rest ih =>
    simp only [List.countP_cons]
    by_cases h1 : x ≤ t
    · have h2 : ¬ t < x := not_lt.mpr h1
      simp [h1, h2]
      omega
    · have h2 : t < x := not_le.mp h1
      simp [h1, h2]
      omega

/-- The interpolated quantile lies between the order statistics bracketing
its position. -/
lemma quantileLin_bracket (s : List ℚ) (hs : List.Sorted (· < ·) s) (p : ℚ) (i : ℕ)
    (hpos : 0 ≤ p * ((s.length : ℚ) - 1))
    (hfloor : ⌊p * ((s.length : ℚ) - 1)⌋₊ = i) (hi : i + 1 < s.length) :
    s.get ⟨i, by omega⟩ ≤ quantileLin s p ∧ quantileLin s p < s.get ⟨i + 1, hi⟩ := by
  have hgi : s.getD i 0 = s.get ⟨i, by omega⟩ := List.getD_eq_get s 0 (by omega)
  have hgi1 : s.getD (i + 1) (s.getD i 0) = s.get ⟨i + 1, hi⟩ := List.getD_eq_get s _ hi
  have hab : s.get ⟨i, by omega⟩ < s.get ⟨i + 1, hi⟩ :=
    List.Sorted.rel_get_of_lt hs (by simp)
  have hg0 : 0 ≤ p * ((s.length : ℚ) - 1) - i := by
    have h := Nat.floor_le hpos
    rw [hfloor] at h
    linarith
  have hg1 : p * ((s.length : ℚ) - 1) - i < 1 := by
    have h := Nat.lt_floor_add_one (p * ((s.length : ℚ) - 1))
    rw [hfloor] at h
    push_cast at h
    linarith
  simp only [quantileLin]
  rw [hfloor, hgi1, hgi]
  constructor
  · nlinarith [mul_nonneg hg0 (le_of_lt (sub_pos.mpr hab))]
  · nlinarith [mul_lt_mul_of_pos_right hg1 (sub_pos.mpr hab)]

/-- Two interpolated quantiles within the same segment are ordered by their
positions. -/
lemma quantileLin_lt_same_floor (s : List ℚ) (hs : List.Sorted (· < ·) s)
    (p1 p2 : ℚ) (i : ℕ)
    (hf1 : ⌊p1 * ((s.length : ℚ) - 1)⌋₊ = i) (hf2 : ⌊p2 * ((s.length : ℚ) - 1)⌋₊ = i)
    (hlt : p1 * ((s.length : ℚ) - 1) < p2 * ((s.length : ℚ) - 1))
    (hi : i + 1 < s.length) :
    quantileLin s p1 < quantileLin s p2 := by
  have hgi : s.getD i 0 = s.get ⟨i, by omega⟩ := List.getD_eq_get s 0 (by omega)
  have hgi1 : s.getD (i + 1) (s.getD i 0) = s.get ⟨i + 1, hi⟩ := List.getD_eq_get s _ hi
  have hab : s.get ⟨i, by omega⟩ < s.get ⟨i + 1, hi⟩ :=
    List.Sorted.rel_get_of_lt hs (by simp)
  simp only [quantileLin]
  rw [hf1, hf2, hgi1, hgi]
  nlinarith [mul_lt_mul_of_pos_right hlt (sub_pos.mpr hab)]

/-- pd.qcut with three quantile bins on pairwise-distinct data succeeds and
produces the tertile group sizes determined by the two interpolated cut
positions: counting from the label-3 (lowest) group the sizes are
(n-1)/3 + 1, 2(n-1)/3 - (n-1)/3 and n - (2(n-1)/3 + 1). -/
lemma qcut3_spec (xs : List ℚ) (hnd : xs.Nodup) (hn : 2 ≤ xs.length) :
    ∃ bs, pdQcut xs 3 (fun i => 3 - i) = some bs ∧ bs.length = xs.length ∧
      bs.count 3 = (xs.length - 1) / 3 + 1 ∧
      bs.count 2 = 2 * (xs.length - 1) / 3 - (xs.length - 1) / 3 ∧
      bs.count 1 = xs.length - (2 * (xs.length - 1) / 3 + 1) := by
  set n := xs.length with hn_def
  set s := List.insertionSort (· ≤ ·) xs with hs_def
  have hperm : List.Perm s xs := List.perm_insertionSort _ xs
  have hlen : s.length = n := hperm.length_eq
  have hsorted : List.Sorted (· < ·) s :=
    (List.sorted_insertionSort _ xs).lt_of_le (hperm.nodup_iff.mpr hnd)
  have hcast : ((s.length : ℚ) - 1) = ((n - 1 : ℕ) : ℚ) := by
    rw [hlen, Nat.cast_sub (by omega : 1 ≤ n), Nat.cast_one]
  set i1 := (n - 1) / 3 with hi1_def
  set i2 := 2 * (n - 1) / 3 with hi2_def
  have hfl1 : ⌊(1/3 : ℚ) * ((s.length : ℚ) - 1)⌋₊ = i1 := by
    rw [hcast]
    have harith : (1/3 : ℚ) * ((n - 1 : ℕ) : ℚ) = ((n - 1 : ℕ) : ℚ) / ((3 : ℕ) : ℚ) := by
      push_cast
      ring
    rw [harith, Nat.floor_div_nat, Nat.floor_natCast]
  have hfl2 : ⌊(2/3 : ℚ) * ((s.length : ℚ) - 1)⌋₊ = i2 := by
    rw [hcast]
    have harith : (2/3 : ℚ) * ((n - 1 : ℕ) : ℚ) = ((2 * (n - 1) : ℕ) : ℚ) / ((3 : ℕ) : ℚ) := by
      push_cast
      ring
    rw [harith, Nat.floor_div_nat, Nat.floor_natCast]
  have hi1lt : i1 + 1 < s.length := by
    rw [hlen]
    omega
  have hi2lt : i2 + 1 < s.length := by
    rw [hlen]
    omega
  have hpos1 : 0 ≤ (1/3 : ℚ) * ((s.length : ℚ) - 1) := by
    rw [hcast]
    positivity
  have hpos2 : 0 ≤ (2/3 : ℚ) * ((s.length : ℚ) - 1) := by
    rw [hcast]
    positivity
  obtain ⟨hq1lo, hq1hi⟩ := quantileLin_bracket s hsorted (1/3) i1 hpos1 hfl1 hi1lt
  obtain ⟨hq2lo, hq2hi⟩ := quantileLin_bracket s hsorted (2/3) i2 hpos2 hfl2 hi2lt
  set q1 := quantileLin s (1/3) with hq1_def
  set q2 := quantileLin s (2/3) with hq2_def
  have hmono : ∀ (a b : ℕ) (ha : a < s.length) (hb : b < s.length), a ≤ b →
      s.get ⟨a, ha⟩ ≤ s.get ⟨b, hb⟩ := by
    intro a b ha hb hab
    rcases eq_or_lt_of_le hab with rfl | hlt2
    · exact le_of_eq rfl
    · exact le_of_lt (List.Sorted.rel_get_of_lt hsorted (by simpa using hlt2))
  have hq12 : q1 < q2 := by
    rcases eq_or_lt_of_le (by omega : i1 ≤ i2) with heq | hlt2
    · refine quantileLin_lt_same_floor s hsorted (1/3) (2/3) i1 hfl1 (heq ▸ hfl2) ?_ hi1lt
      rw [hcast]
      have h1n : (1 : ℚ) ≤ ((n - 1 : ℕ) : ℚ) := by
        have : 1 ≤ n - 1 := by omega
        exact_mod_cast this
      nlinarith
    · calc q1 < s.get ⟨i1 + 1, hi1lt⟩ := hq1hi
        _ ≤ s.get ⟨i2, by omega⟩ := hmono _ _ _ _ (by omega)
        _ ≤ q2 := hq2lo
  have hmx : s.getLast?.getD 0 = s.get ⟨s.length - 1, by omega⟩ := by
    rw [List.getLast?_eq_get?, List.get?_eq_get (by omega)]
    rfl
  have hq2mx : q2 < s.getLast?.getD 0 := by
    rw [hmx]
    calc q2 < s.get ⟨i2 + 1, hi2lt⟩ := hq2hi
      _ ≤ s.get ⟨s.length - 1, by omega⟩ := hmono _ _ _ _ (by omega)
  have hcnt1 : s.countP (fun v => decide (v ≤ q1)) = i1 + 1 :=
    countP_le_of_sorted s hsorted i1 (by omega) q1 hq1lo (fun hj => hq1hi)
  have hcnt2 : s.countP (fun v => decide (v ≤ q2)) = i2 + 1 :=
    countP_le_of_sorted s hsorted i2 (by omega) q2 hq2lo (fun hj => hq2hi)
  have h30 : (((0 : ℕ) : ℚ) + 1) / ((3 : ℕ) : ℚ) = (1/3 : ℚ) := by norm_num
  have h31 : (((1 : ℕ) : ℚ) + 1) / ((3 : ℕ) : ℚ) = (2/3 : ℚ) := by norm_num
  have hinner : (List.range (3 - 1)).map
      (fun (k : ℕ) => quantileLin s (((k : ℚ) + 1) / ((3 : ℕ) : ℚ))) = [q1, q2] := by
    have hr2 : List.range (3 - 1) = [0, 1] := rfl
    rw [hr2, List.map_cons, List.map_cons, List.map_nil, h30, h31]
  have hcond : strictAsc ([q1, q2] ++ [s.getLast?.getD 0]) = true := by
    simp [strictAsc_pair, strictAsc_one, hq12, hq2mx]
  refine ⟨xs.map (fun v => 3 - ([q1, q2].countP (fun e => decide (e < v)))), ?_, by
    simp, ?_, ?_, ?_⟩
  · simp only [pdQcut]
    rw [← hs_def, hinner, hcond]
    rfl
  · rw [List.count_eq_countP, List.countP_map]
    have hpt : ∀ v ∈ xs,
        ((fun b => b == 3) ∘ (fun v => 3 - ([q1, q2].countP (fun e => decide (e < v))))) v =
        (fun v => decide (v ≤ q1)) v := by
      intro v _
      by_cases h1 : q1 < v
      · by_cases h2 : q2 < v
        · simp [List.countP_cons, h1, h2, not_le.mpr h1]
        · simp [List.countP_cons, h1, h2, not_le.mpr h1]
      · have h2 : ¬ q2 < v := fun hc => h1 (lt_trans hq12 hc)
        simp [List.countP_cons, h1, h2, not_lt.mp h1]
    rw [List.countP_congr (fun x hx => by rw [hpt x hx]), ← hperm.countP_eq, hcnt1]
  · rw [List.count_eq_countP, List.countP_map]
    have hpt : ∀ v ∈ xs,
        ((fun b => b == 2) ∘ (fun v => 3 - ([q1, q2].countP (fun e => decide (e < v))))) v =
        (fun v => decide (q1 < v) && decide (v ≤ q2)) v := by
      intro v _
      by_cases h1 : q1 < v
      · by_cases h2 : q2 < v
        · simp [List.countP_cons, h1, h2, not_le.mpr h2]
        · simp [List.countP_cons, h1, h2, not_lt.mp h2]
      · have h2 : ¬ q2 < v := fun hc => h1 (lt_trans hq12 hc)
        simp [List.countP_cons, h1, h2]
    rw [List.countP_congr (fun x hx => by rw [hpt x hx]), ← hperm.countP_eq]
    have hsplit := countP_le_split s q1 q2 (le_of_lt hq12)
    rw [hcnt1, hcnt2] at hsplit
    omega
  · rw [List.count_eq_countP, List.countP_map]
    have hpt : ∀ v ∈ xs,
        ((fun b => b == 1) ∘ (fun v => 3 - ([q1, q2].countP (fun e => decide (e < v))))) v =
        (fun v => decide (q2 < v)) v := by
      intro v _
      by_cases h1 : q1 < v
      · by_cases h2 : q2 < v
        · simp [List.countP_cons, h1, h2]
        · simp [List.countP_cons, h1, h2]
      · have h2 : ¬ q2 < v := fun hc => h1 (lt_trans hq12 hc)
        simp [List.countP_cons, h1, h2]
    rw [List.countP_congr (fun x hx => by rw [hpt x hx]), ← hperm.countP_eq]
    have htot := countP_le_add_gt s q2
    rw [hcnt2] at htot
    rw [hlen] at htot
    omega

/-- Claim C7 counterexample: on six customers whose monetary column is
1, 2, 2, 3, 4, 5 (tied values) and whose churn risks are distinct,
assign_priority_band succeeds but the monetary tertiles have sizes 3, 1
and 2; the population size 6 is divisible by 3, so the claimed bound
(sizes differ by at most the remainder, here 0) is violated. -/
theorem C7_counterexample_tied_monetary :
    (assign_priority_band c7rows).map (List.map (fun b => b.value_band)) =
      some [3, 3, 3, 2, 1, 1] ∧
    c7rows.length % 3 = 0 ∧
    ¬ balanced3 [3, 3, 3, 2, 1, 1] (c7rows.length % 3) := by
  refine ⟨?_, by decide, by unfold balanced3; decide⟩
  have hf1 : (⌊(5:ℚ)/3⌋₊ : ℕ) = 1 := by rw [Nat.floor_eq_iff (by norm_num)]; norm_num
  have hf2 : (⌊(10:ℚ)/3⌋₊ : ℕ) = 3 := by rw [Nat.floor_eq_iff (by norm_num)]; norm_num
  norm_num [hf1, hf2, assign_priority_band, c7rows, fullRow, allSome, pdQcut,
    quantileLin, strictAsc_pair, strictAsc_one, List.insertionSort,
    List.orderedInsert, List.range_succ, priority, Option.map]

/-- Claim C7 as amended: when the churn risk column and the monetary column
each hold pairwise distinct values (and the population has at least two
customers with no missing monetary entry), assign_priority_band succeeds
and both tertile bandings are balanced: group sizes differ pairwise by at
most the remainder of the population count divided by three.  The
counterexample shows the distinctness hypothesis cannot be dropped: with
tied values the interpolated quantile edges shift and the groups become
unbalanced. -/
theorem C7_tertile_balance_of_distinct :
    ∀ (rows : List Deciled) (ms : List ℚ),
      allSome (rows.map (fun r => r.scored.base.monetary)) = some ms →
      (rows.map (fun r => r.scored.churn_risk)).Nodup → ms.Nodup → 2 ≤ rows.length →
      ∃ out, assign_priority_band rows = some out ∧
        balanced3 (out.map (fun b => b.risk_band)) (rows.length % 3) ∧
        balanced3 (out.map (fun b => b.value_band)) (rows.length % 3) := by
  intro rows ms hms hndr hndm hn
  have hmlen : ms.length = rows.length := by
    simpa using allSome_length _ _ hms
  obtain ⟨rbs, hrbs, hrlen, hr3, hr2, hr1⟩ :=
    qcut3_spec (rows.map (fun r => r.scored.churn_risk)) hndr (by simpa using hn)
  obtain ⟨vbs, hvbs, hvlen, hv3, hv2, hv1⟩ := qcut3_spec ms hndm (by omega)
  have hrlen2 : rbs.length = rows.length := by simpa using hrlen
  have hvlen2 : vbs.length = rows.length := by omega
  have hL : (rows.map (fun r => r.scored.churn_risk)).length = rows.length := by simp
  rw [hL] at hr3 hr2 hr1
  rw [hmlen] at hv3 hv2 hv1
  refine ⟨((rows.zip rbs).zip vbs).map
      (fun p => ⟨p.1.1, p.1.2, p.2, priority p.1.2 p.2⟩), ?_, ?_, ?_⟩
  · unfold assign_priority_band
    rw [hrbs]
    dsimp only
    rw [hms]
    dsimp only
    rw [hvbs]
  · have hz : (((rows.zip rbs).zip vbs).map
        (fun p => (⟨p.1.1, p.1.2, p.2, priority p.1.2 p.2⟩ : Banded))).map
          (fun b => b.risk_band) = rbs := by
      rw [List.map_map]
      exact (zip_zip_proj rows rbs vbs hrlen2 hvlen2).2.1
    rw [hz]
    have h30 : rows.length % 3 = 0 ∨ rows.length % 3 = 1 ∨ rows.length % 3 = 2 := by omega
    have hd : 2 * (rows.length - 1) = 2 * rows.length - 2 := by omega
    rw [hd] at hr2 hr1
    unfold balanced3
    rcases h30 with h | h | h <;> omega
  · have hz : (((rows.zip rbs).zip vbs).map
        (fun p => (⟨p.1.1, p.1.2, p.2, priority p.1.2 p.2⟩ : Banded))).map
          (fun b => b.value_band) = vbs := by
      rw [List.map_map]
      exact (zip_zip_proj rows rbs vbs hrlen2 hvlen2).2.2
    rw [hz]
    have h30 : rows.length % 3 = 0 ∨ rows.length % 3 = 1 ∨ rows.length % 3 = 2 := by omega
    have hd : 2 * (rows.length - 1) = 2 * rows.length - 2 := by omega
    rw [hd] at hv2 hv1
    unfold balanced3
    rcases h30 with h | h | h <;> omega

/-- Witness for the amended C7: six customers with pairwise distinct churn
risks and monetary values are banded into balanced tertiles. -/
theorem C7_tertile_balance_of_distinct_witness :
    ∃ out, assign_priority_band c7distinctRows = some out ∧
      balanced3 (out.map (fun b => b.risk_band)) (c7distinctRows.length % 3) ∧
      balanced3 (out.map (fun b => b.value_band)) (c7distinctRows.length % 3) :=
  C7_tertile_balance_of_distinct c7distinctRows [1, 2, 6, 3, 4, 5]
    (by decide) (by decide) (by decide) (by decide)

end Cymbal
